import Mathlib

/-!
Verification of the music-video generator's feature-extraction and
decision-validation engine.

The development shallowly embeds the relevant source functions:

* `src/services/geminiService.ts` — `createVideoSequence`'s post-parse
  repair/validation of the oracle's raw decision list (lines 186-221).
* `src/unnamed/part_002` — `analyzeEnergy` (energy segmentation of the
  decoded audio buffer).
* `src/unnamed/part_004` — the analysis worker: `classifyObjects`, the
  in-flight-task registry of `analyzeVideoContent`, and the function
  names defined inside `workerCode`.
* `src/utils/video.ts` — the clip id computed by `getClipMetadata`.

JavaScript numbers are modelled as exact rationals extended with the
three non-finite values NaN, +Infinity and -Infinity.  `JSON.parse`
never yields NaN, but it does yield positive or negative Infinity for overflowing numeric
literals such as 1e999, so all three non-finite values are kept in the
model; NaN additionally arises as the result of `%` on a non-finite
operand.  Floating-point rounding of `+`, `*`, `/` is idealised to exact
rational arithmetic, which is the standard shallow embedding and does
not affect any property proved here (all compared quantities are either
exact or order-robust).
-/

/-- A JavaScript number: NaN, +Infinity, -Infinity, or a finite value
(idealised as an exact rational). -/
inductive JSNum where
  | nan
  | inf
  | negInf
  | fin (q : ℚ)
deriving DecidableEq

/-- A JavaScript value as produced by `JSON.parse`: null, boolean,
number, string, array, or object (a list of key/value fields). -/
inductive JVal where
  | jnull
  | jbool (b : Bool)
  | jnum (n : JSNum)
  | jstr (s : String)
  | jarr (elems : List JVal)
  | jobj (fields : List (String × JVal))

/-- `Math.abs` on a JavaScript number. -/
def jsAbs : JSNum → JSNum
  | .nan => .nan
  | .inf => .inf
  | .negInf => .inf
  | .fin q => .fin |q|

/-- Truncation toward zero, the rounding used by the JavaScript `%`
operator on finite operands. -/
def ratTrunc (q : ℚ) : ℤ :=
  if 0 ≤ q then ⌊q⌋ else ⌈q⌉

/-- The JavaScript remainder `x % n` for a natural-number divisor `n`
(the divisor at the repair site is `clips.length`).  NaN and the two
infinities as dividend, as well as a zero divisor, yield NaN; a finite
dividend yields `q - n * trunc (q / n)`, the sign-of-dividend remainder
of ECMAScript. -/
def jsMod (x : JSNum) (n : ℕ) : JSNum :=
  match x with
  | .fin q => if n = 0 then .nan else .fin (q - n * ratTrunc (q / n))
  | _ => .nan

/-- The JavaScript comparison `x <= 0` (used on `item.duration`): false
for NaN and +Infinity, true for -Infinity, and the rational comparison
for finite values. -/
def jsLeZero : JSNum → Bool
  | .nan => false
  | .inf => false
  | .negInf => true
  | .fin q => decide (q ≤ 0)

/-- Property lookup on a JavaScript object literal built by
`JSON.parse`; with duplicate keys the last binding wins, matching
`JSON.parse` semantics. -/
def lookupField (fields : List (String × JVal)) (key : String) : Option JVal :=
  fields.foldl (fun acc p => if p.1 = key then some p.2 else acc) none

/-- `item?.[key]` when the result is additionally required to satisfy
`typeof · === 'number'`: yields the numeric field value, or `none` when
`item` is not an object, the key is absent, or the value is not a
number. -/
def getNumField (item : JVal) (key : String) : Option JSNum :=
  match item with
  | .jobj fields =>
    match lookupField fields key with
    | some (.jnum n) => some n
    | _ => none
  | _ => none

/-- `item?.[key]` when the result is additionally required to satisfy
`typeof · === 'string'`. -/
def getStrField (item : JVal) (key : String) : Option String :=
  match item with
  | .jobj fields =>
    match lookupField fields key with
    | some (.jstr s) => some s
    | _ => none
  | _ => none

/-- The validated form of a raw edit entry, mirroring the TypeScript
`EditDecision` interface (src/unnamed/part_001): `clipIndex` and
`duration` are JavaScript numbers, `description` a string. -/
structure EditDecision where
  clipIndex : JSNum
  duration : JSNum
  description : String
deriving DecidableEq

/-- Per-entry check-and-repair step of `createVideoSequence`
(src/services/geminiService.ts lines 198-213): the entry is discarded
(`none`) when `typeof item?.clipIndex !== 'number'`,
`typeof item?.duration !== 'number'`, `item.duration <= 0`, or
`typeof item?.description !== 'string'`; otherwise the clip index is
repaired to `Math.abs(item.clipIndex) % clips.length` where `n` is the
clip set size `clips.length`. -/
def validateEntry (n : ℕ) (item : JVal) : Option EditDecision :=
  match getNumField item "clipIndex", getNumField item "duration",
        getStrField item "description" with
  | some ci, some dur, some desc =>
    if jsLeZero dur then none
    else some { clipIndex := jsMod (jsAbs ci) n, duration := dur, description := desc }
  | _, _, _ => none

/-- Shape handling of the parsed oracle response
(src/services/geminiService.ts lines 188-194): an array is used as is; a
non-array is wrapped into a one-element list only when it is a non-null
object containing a `clipIndex` key (`'clipIndex' in parsedJson`);
every other shape is rejected. -/
def wrapParsed : JVal → Option (List JVal)
  | .jarr elems => some elems
  | .jobj fields =>
    if (lookupField fields "clipIndex").isSome then some [.jobj fields] else none
  | _ => none

/-- Error message thrown when the parsed response is neither an array
nor an object with a `clipIndex` key (src/services/geminiService.ts
line 192). -/
def notArrayErrorMsg : String :=
  "AI response is not a valid array of edit decisions."

/-- Error message thrown when no entry survives validation
(src/services/geminiService.ts line 218). -/
def emptySequenceErrorMsg : String :=
  "The AI failed to generate a valid video sequence. Please try again with different clips or a clearer description."

/-- The repair/validation pipeline of `createVideoSequence` applied to
the already-JSON-parsed oracle response (src/services/geminiService.ts
lines 186-221), for a clip set of size `n`. -/
def createVideoSequenceValidate (n : ℕ) (parsed : JVal) :
    Except String (List EditDecision) :=
  match wrapParsed parsed with
  | none => .error notArrayErrorMsg
  | some items =>
    let decisions := items.filterMap (validateEntry n)
    if decisions.isEmpty then .error emptySequenceErrorMsg
    else .ok decisions

/-- `x` is a finite number lying in `[0, n)` — the range the repaired
clip index is claimed to land in. -/
def jsInRange (x : JSNum) (n : ℕ) : Prop :=
  ∃ q : ℚ, x = .fin q ∧ 0 ≤ q ∧ q < n

/-- The structural conditions under which the per-entry step of
`createVideoSequence` discards a raw entry: `clipIndex` not a number,
`duration` not a number, `duration <= 0` under JavaScript comparison,
or `description` not a string. -/
def discardedEntry (item : JVal) : Prop :=
  getNumField item "clipIndex" = none ∨
  getNumField item "duration" = none ∨
  (∃ x, getNumField item "duration" = some x ∧ jsLeZero x = true) ∨
  getStrField item "description" = none

/-- File identity attributes used by the repository to build clip keys:
name, `lastModified` (epoch milliseconds) and size in bytes. -/
structure FileMeta where
  name : String
  lastModified : ℕ
  size : ℕ
deriving DecidableEq

/-- The id assigned by `getClipMetadata` (src/utils/video.ts line 68):
the template literal `file.name + "-" + file.lastModified`. -/
def getClipMetadataId (f : FileMeta) : String :=
  f.name ++ "-" ++ toString f.lastModified

/-- The in-flight-task key of `analyzeVideoContent`
(src/unnamed/part_004 line 217): the template literal
`file.name + "-" + file.lastModified + "-" + file.size`. -/
def analysisFileId (f : FileMeta) : String :=
  f.name ++ "-" ++ toString f.lastModified ++ "-" ++ toString f.size

/-- Observable state of the analysis coordinator
(src/unnamed/part_004): the keys present in the `runningTasks` map and
the sequence of messages posted to the worker so far. -/
structure CoordState where
  runningTasks : List String
  postedMessages : List String
deriving DecidableEq

/-- Outcome of one call to `analyzeVideoContent` as seen by the caller:
either the returned promise is immediately rejected with an error
message, or a task was started and the result is pending. -/
inductive SubmitOutcome where
  | rejected (msg : String)
  | pending
deriving DecidableEq

/-- Rejection message for a duplicate submission
(src/unnamed/part_004 line 227). -/
def alreadyAnalyzedMsg : String := "This clip is already being analyzed."

/-- The synchronous submission step of `analyzeVideoContent`
(src/unnamed/part_004 lines 220-235), assuming the worker exists (which
holds whenever any task is in flight): if the key is already in
`runningTasks` the call rejects without posting; otherwise the key is
registered and one message is posted to the worker. -/
def analyzeVideoContentSubmit (s : CoordState) (fileId : String) :
    SubmitOutcome × CoordState :=
  if fileId ∈ s.runningTasks then
    (SubmitOutcome.rejected alreadyAnalyzedMsg, s)
  else
    (SubmitOutcome.pending,
     { runningTasks := fileId :: s.runningTasks,
       postedMessages := s.postedMessages ++ [fileId] })

/-- `classifyObjects` from the worker (src/unnamed/part_004 lines
115-122); the input is the list of detections `(class, score)` and the
`Set` built from the class labels is modelled by list membership. -/
def classifyObjects (objects : List (String × ℚ)) : String :=
  let classes := objects.map Prod.fst
  if "person" ∈ classes then "people"
  else if "car" ∈ classes ∨ "bus" ∈ classes ∨ "traffic light" ∈ classes then "urban"
  else if "sports ball" ∈ classes ∨ "skateboard" ∈ classes ∨ "surfboard" ∈ classes then "action"
  else if "bird" ∈ classes ∨ "cat" ∈ classes ∨ "dog" ∈ classes ∨ "tree" ∈ classes then "nature"
  else "other"

/-- The names of all functions defined inside the `workerCode` string of
src/unnamed/part_004 (lines 17, 35, 56, 68, 99 and 115). -/
def workerDefinedFunctions : List String :=
  ["loadModels", "extractFrameData", "analyzeBrightness", "applySobel",
   "calculateMotion", "classifyObjects"]

/-- The function name invoked to compute `visualComplexity` in the
worker's message handler (src/unnamed/part_004 line 157). -/
def visualComplexityCallee : String := "analyzeSobel"

/-- An energy segment as produced by `analyzeEnergy`
(src/unnamed/part_002): start and end time in seconds and an intensity
label among "low", "medium", "high". -/
structure EnergySegment where
  startTime : ℚ
  endTime : ℚ
  intensity : String
deriving DecidableEq

instance : Inhabited EnergySegment := ⟨⟨0, 0, "low"⟩⟩

/-- Number of iterations of the windowing loop of `analyzeEnergy`
(src/unnamed/part_002 line 21): `i` ranges over `0, sr, 2*sr, ...`
while `i < len`, i.e. `⌈len / sr⌉` windows (`samplesPerSegment` equals
`sampleRate` because `segmentDuration` is 1). -/
def numWindows (len sr : ℕ) : ℕ := (len + sr - 1) / sr

/-- The `k`-th 1-second window `data.slice(k*sr, min((k+1)*sr, len))`. -/
def window (samples : List ℚ) (sr k : ℕ) : List ℚ :=
  (samples.drop (k * sr)).take sr

/-- Mean square of a window.  The source stores
`rms = Math.sqrt(sumOfSquares / segment.length)`; since every use of
the stored values (sorting, and `>=` comparisons against values
selected from the sorted copy) only inspects their relative order and
square root is strictly monotone on nonnegative reals, the model keeps
the mean square itself and all comparisons coincide with the
source's. -/
def meanSquare (w : List ℚ) : ℚ :=
  (w.map fun x => x * x).sum / w.length

/-- The per-window energy list `energyLevels` of `analyzeEnergy`. -/
def energyLevels (samples : List ℚ) (sr : ℕ) : List ℚ :=
  (List.range (numWindows samples.length sr)).map fun k =>
    meanSquare (window samples sr k)

/-- `startTime = i / sampleRate` of the `k`-th window (`i = k * sr`). -/
def segStart (sr k : ℕ) : ℚ := (k * sr : ℕ) / (sr : ℚ)

/-- `endTime = min(i + sps, len) / sampleRate` of the `k`-th window. -/
def segEnd (len sr k : ℕ) : ℚ := (min ((k + 1) * sr) len : ℕ) / (sr : ℚ)

/-- The ascending sort `[...energyLevels].sort((a, b) => a - b)`. -/
def sortedEnergy (samples : List ℚ) (sr : ℕ) : List ℚ :=
  List.insertionSort (· ≤ ·) (energyLevels samples sr)

/-- `sortedEnergy[Math.floor(sortedEnergy.length * 0.33)]`; the float
literal 0.33 is idealised to 33/100, which yields the same index for
every length (the double closest to 0.33 is slightly above it and the
product never crosses an integer boundary). -/
def lowThreshold (samples : List ℚ) (sr : ℕ) : ℚ :=
  (sortedEnergy samples sr).getD (33 * (sortedEnergy samples sr).length / 100) 0

/-- `sortedEnergy[Math.floor(sortedEnergy.length * 0.66)]`. -/
def highThreshold (samples : List ℚ) (sr : ℕ) : ℚ :=
  (sortedEnergy samples sr).getD (66 * (sortedEnergy samples sr).length / 100) 0

/-- The classification step of `analyzeEnergy` (lines 42-49):
`energy >= highThreshold` yields "high", else `energy >= lowThreshold`
yields "medium", else "low". -/
def classify (energy low high : ℚ) : String :=
  if high ≤ energy then "high"
  else if low ≤ energy then "medium"
  else "low"

/-- The classified (pre-merge) segment list of `analyzeEnergy`
(lines 21-51): the `k`-th window carries its start and end time and the
classification of its energy against the two percentile thresholds. -/
def classifiedSegments (samples : List ℚ) (sr : ℕ) : List EnergySegment :=
  (List.range (numWindows samples.length sr)).map fun k =>
    { startTime := segStart sr k,
      endTime := segEnd samples.length sr k,
      intensity := classify ((energyLevels samples sr).getD k 0)
        (lowThreshold samples sr) (highThreshold samples sr) }

/-- The merge loop of `analyzeEnergy` (lines 57-73): `cur` is the
accumulator `currentSegment`; a following segment of equal intensity
extends `cur.endTime`, a different intensity pushes `cur` and restarts
from the next segment, and the final accumulator is always pushed. -/
def mergeSegments (cur : EnergySegment) : List EnergySegment → List EnergySegment
  | [] => [cur]
  | next :: rest =>
    if next.intensity = cur.intensity then
      mergeSegments { cur with endTime := next.endTime } rest
    else
      cur :: mergeSegments next rest

/-- `analyzeEnergy` (src/unnamed/part_002 lines 13-76) on the decoded
first-channel sample list and sample rate: zero windows yield `[]`
(the `energyLevels.length === 0` early return), otherwise the
classified windows are merged.  The redundant
`classifiedSegments.length === 0` check of the source is subsumed:
both lists have length `numWindows`. -/
def analyzeEnergy (samples : List ℚ) (sr : ℕ) : List EnergySegment :=
  match classifiedSegments samples sr with
  | [] => []
  | c :: rest => mergeSegments c rest

/-- `AudioBuffer.duration`, i.e. `length / sampleRate`, which
`analyzeAudio` (src/unnamed/part_002 line 143) reports as the
analysis duration. -/
def audioDuration (samples : List ℚ) (sr : ℕ) : ℚ :=
  (samples.length : ℚ) / sr

/-- End time of the last segment of a list (0 when empty). -/
def lastEnd (l : List EnergySegment) : ℚ :=
  (l.getLastD default).endTime

/-- C3: the worker's message handler computes `visualComplexity` by
calling `analyzeSobel`, but no function of that name is defined in the
worker — the Sobel routine is defined under the name `applySobel` and
is never called — so the reference throws and no analysis ever reaches
a `visualComplexity` value. -/
theorem C3_sobel_callee_undefined :
    visualComplexityCallee ∉ workerDefinedFunctions := by
  decide

/-- C4 counterexample: two files sharing name and modification time but
differing in size receive the same id from `getClipMetadata` (the id
omits the size), while the analysis coordinator's dedup key does
distinguish them. -/
theorem C4_counterexample :
    (⟨"a.mp4", 5, 100⟩ : FileMeta).size ≠ (⟨"a.mp4", 5, 200⟩ : FileMeta).size ∧
    getClipMetadataId ⟨"a.mp4", 5, 100⟩ = getClipMetadataId ⟨"a.mp4", 5, 200⟩ ∧
    analysisFileId ⟨"a.mp4", 5, 100⟩ ≠ analysisFileId ⟨"a.mp4", 5, 200⟩ := by
  refine ⟨by decide, rfl, by decide⟩

/-- C4 (amended): the id `getClipMetadata` assigns depends only on the
clip's name and modification time — the size is not part of it — so two
files agreeing on those two attributes receive the same id regardless
of size. -/
theorem C4_id_ignores_size (f g : FileMeta) (hn : f.name = g.name)
    (hm : f.lastModified = g.lastModified) :
    getClipMetadataId f = getClipMetadataId g := by
  simp [getClipMetadataId, hn, hm]

/-- Witness for C4 (amended) at two concrete files differing only in
size. -/
theorem C4_id_ignores_size_witness :
    getClipMetadataId ⟨"a.mp4", 5, 100⟩ = getClipMetadataId ⟨"a.mp4", 5, 200⟩ :=
  C4_id_ignores_size ⟨"a.mp4", 5, 100⟩ ⟨"a.mp4", 5, 200⟩ rfl rfl

/-- C6 counterexample: a single bare object without a `clipIndex` key
(here the empty object) is not treated as a one-element list; the
validator fails outright with the not-an-array error. -/
theorem C6_counterexample :
    createVideoSequenceValidate 3 (.jobj []) = .error notArrayErrorMsg := by
  rfl

/-- C6 (amended): a single bare object is treated as a one-element list
exactly when it contains a `clipIndex` key; for such objects the
validator behaves as on the singleton array. -/
theorem C6_wrap_object (n : ℕ) (fields : List (String × JVal))
    (h : (lookupField fields "clipIndex").isSome = true) :
    createVideoSequenceValidate n (.jobj fields)
      = createVideoSequenceValidate n (.jarr [.jobj fields]) := by
  simp [createVideoSequenceValidate, wrapParsed, h]

/-- Witness for C6 (amended) at a concrete one-field object. -/
theorem C6_wrap_object_witness :
    createVideoSequenceValidate 3 (.jobj [("clipIndex", .jnum (.fin 0))])
      = createVideoSequenceValidate 3 (.jarr [.jobj [("clipIndex", .jnum (.fin 0))]]) :=
  C6_wrap_object 3 [("clipIndex", .jnum (.fin 0))] (by rfl)

/-- C8: when a task for a clip's composite key is already in flight, a
second call to `analyzeVideoContent` for the same key is rejected with
the already-in-progress error and posts no further message to the
worker: across the two calls exactly one message for that key is
posted. -/
theorem C8_duplicate_submit_rejected (s : CoordState) (f : FileMeta)
    (h : analysisFileId f ∉ s.runningTasks) :
    (analyzeVideoContentSubmit
        ((analyzeVideoContentSubmit s (analysisFileId f)).2) (analysisFileId f)).1
      = SubmitOutcome.rejected alreadyAnalyzedMsg ∧
    (analyzeVideoContentSubmit
        ((analyzeVideoContentSubmit s (analysisFileId f)).2) (analysisFileId f)).2.postedMessages
      = s.postedMessages ++ [analysisFileId f] := by
  simp [analyzeVideoContentSubmit, h]

/-- Witness for C8 at an empty coordinator state and a concrete file. -/
theorem C8_duplicate_submit_rejected_witness :
    (analyzeVideoContentSubmit
        ((analyzeVideoContentSubmit ⟨[], []⟩ (analysisFileId ⟨"a.mp4", 5, 100⟩)).2)
        (analysisFileId ⟨"a.mp4", 5, 100⟩)).1
      = SubmitOutcome.rejected alreadyAnalyzedMsg ∧
    (analyzeVideoContentSubmit
        ((analyzeVideoContentSubmit ⟨[], []⟩ (analysisFileId ⟨"a.mp4", 5, 100⟩)).2)
        (analysisFileId ⟨"a.mp4", 5, 100⟩)).2.postedMessages
      = ([] : List String) ++ [analysisFileId ⟨"a.mp4", 5, 100⟩] :=
  C8_duplicate_submit_rejected ⟨[], []⟩ ⟨"a.mp4", 5, 100⟩ (by simp)

/-- C9: `classifyObjects` derives the dominant category by fixed
precedence on the detected class labels — person beats vehicle beats
sport beats animal, anything else is "other" — so in particular a
detection set containing both "person" and "car" classifies as
"people". -/
theorem C9_classify_precedence (objects : List (String × ℚ)) :
    ("person" ∈ objects.map Prod.fst → classifyObjects objects = "people") ∧
    ("person" ∉ objects.map Prod.fst →
      ("car" ∈ objects.map Prod.fst ∨ "bus" ∈ objects.map Prod.fst ∨
        "traffic light" ∈ objects.map Prod.fst) →
      classifyObjects objects = "urban") ∧
    ("person" ∉ objects.map Prod.fst →
      ¬("car" ∈ objects.map Prod.fst ∨ "bus" ∈ objects.map Prod.fst ∨
        "traffic light" ∈ objects.map Prod.fst) →
      ("sports ball" ∈ objects.map Prod.fst ∨ "skateboard" ∈ objects.map Prod.fst ∨
        "surfboard" ∈ objects.map Prod.fst) →
      classifyObjects objects = "action") ∧
    ("person" ∉ objects.map Prod.fst →
      ¬("car" ∈ objects.map Prod.fst ∨ "bus" ∈ objects.map Prod.fst ∨
        "traffic light" ∈ objects.map Prod.fst) →
      ¬("sports ball" ∈ objects.map Prod.fst ∨ "skateboard" ∈ objects.map Prod.fst ∨
        "surfboard" ∈ objects.map Prod.fst) →
      ("bird" ∈ objects.map Prod.fst ∨ "cat" ∈ objects.map Prod.fst ∨
        "dog" ∈ objects.map Prod.fst ∨ "tree" ∈ objects.map Prod.fst) →
      classifyObjects objects = "nature") ∧
    ("person" ∉ objects.map Prod.fst →
      ¬("car" ∈ objects.map Prod.fst ∨ "bus" ∈ objects.map Prod.fst ∨
        "traffic light" ∈ objects.map Prod.fst) →
      ¬("sports ball" ∈ objects.map Prod.fst ∨ "skateboard" ∈ objects.map Prod.fst ∨
        "surfboard" ∈ objects.map Prod.fst) →
      ¬("bird" ∈ objects.map Prod.fst ∨ "cat" ∈ objects.map Prod.fst ∨
        "dog" ∈ objects.map Prod.fst ∨ "tree" ∈ objects.map Prod.fst) →
      classifyObjects objects = "other") := by
  refine ⟨fun h1 => ?_, fun h1 h2 => ?_, fun h1 h2 h3 => ?_,
    fun h1 h2 h3 h4 => ?_, fun h1 h2 h3 h4 => ?_⟩ <;>
    simp only [classifyObjects] <;> simp_all

/-- Witness for C9: a detection set with both a person and a car
classifies as "people". -/
theorem C9_classify_precedence_witness :
    classifyObjects [("person", 1), ("car", 1)] = "people" :=
  (C9_classify_precedence [("person", 1), ("car", 1)]).1 (by simp)

/-- The three field keys are pairwise distinct (used to evaluate
concrete property lookups). -/
theorem descKeyNeClipKey : ("description" : String) ≠ "clipIndex" := by decide

/-- Key disequality used to evaluate concrete property lookups. -/
theorem durKeyNeClipKey : ("duration" : String) ≠ "clipIndex" := by decide

/-- Key disequality used to evaluate concrete property lookups. -/
theorem descKeyNeDurKey : ("description" : String) ≠ "duration" := by decide

/-- Shape of a surviving entry: the three fields are well-typed, the
duration check passed, and the output record carries the repaired
index. -/
theorem validateEntry_eq_some {n : ℕ} {item : JVal} {d : EditDecision}
    (h : validateEntry n item = some d) :
    ∃ ci dur desc, getNumField item "clipIndex" = some ci
      ∧ getNumField item "duration" = some dur
      ∧ getStrField item "description" = some desc
      ∧ jsLeZero dur = false
      ∧ d = ⟨jsMod (jsAbs ci) n, dur, desc⟩ := by
  unfold validateEntry at h
  split at h
  · next ci dur desc heq1 heq2 heq3 =>
    split at h
    · exact absurd h (by simp)
    · next hle =>
      refine ⟨ci, dur, desc, heq1, heq2, heq3, by simpa using hle, ?_⟩
      injection h with h
      exact h.symm
  · exact absurd h (by simp)

/-- An entry meeting any of the structural discard conditions is mapped
to `none` by the per-entry step. -/
theorem discarded_validateEntry_none {item : JVal} (h : discardedEntry item)
    (n : ℕ) : validateEntry n item = none := by
  unfold validateEntry
  rcases h with h | h | ⟨x, hx, hle⟩ | h
  · simp [h]
  · cases hci : getNumField item "clipIndex" <;> simp [h, hci]
  · cases hci : getNumField item "clipIndex" <;>
      cases hdesc : getStrField item "description" <;>
      simp [hci, hx, hdesc, hle]
  · cases hci : getNumField item "clipIndex" <;>
      cases hdur : getNumField item "duration" <;>
      simp [hci, hdur, h]

/-- C1 counterexample: the oracle can supply a non-finite numeric
`clipIndex` (`JSON.parse` turns an overflowing literal such as `1e999`
into Infinity), the entry survives the structural checks
(`typeof Infinity === 'number'`), and the repaired index
`Math.abs(Infinity) % 3` is NaN, which does not lie in `[0, 3)`. -/
theorem C1_counterexample :
    validateEntry 3
        (.jobj [("clipIndex", .jnum .inf), ("duration", .jnum (.fin 1)),
                ("description", .jstr "x")])
      = some ⟨.nan, .fin 1, "x"⟩ ∧ ¬ jsInRange .nan 3 := by
  constructor
  · norm_num [validateEntry, getNumField, getStrField, lookupField, jsLeZero,
      jsMod, jsAbs, descKeyNeClipKey, durKeyNeClipKey, descKeyNeDurKey]
  · rintro ⟨q, hq, -, -⟩
    exact JSNum.noConfusion hq

/-- C1 (amended): for every surviving raw entry whose `clipIndex` is a
finite number `q`, the validator sets the output clip index to the
JavaScript remainder `Math.abs(q) % n`, and for clip set size `n ≥ 1`
this value always lies in `[0, n)`; non-finite surviving indices
instead repair to NaN. -/
theorem C1_repair_in_range (n : ℕ) (hn : 0 < n) (item : JVal)
    (d : EditDecision) (q : ℚ)
    (hval : validateEntry n item = some d)
    (hfin : getNumField item "clipIndex" = some (.fin q)) :
    d.clipIndex = .fin (|q| - n * ⌊|q| / (n : ℚ)⌋) ∧ jsInRange d.clipIndex n := by
  obtain ⟨ci, dur, desc, hci, -, -, -, hd⟩ := validateEntry_eq_some hval
  rw [hci] at hfin
  injection hfin with hfin
  subst hfin
  have hn0 : (0 : ℚ) < n := by exact_mod_cast hn
  have habs : (0 : ℚ) ≤ |q| / n := div_nonneg (abs_nonneg q) hn0.le
  have hidx : d.clipIndex = .fin (|q| - n * ⌊|q| / (n : ℚ)⌋) := by
    rw [hd]
    show jsMod (jsAbs (.fin q)) n = _
    simp only [jsAbs, jsMod, if_neg (Nat.pos_iff_ne_zero.mp hn), ratTrunc,
      if_pos habs]
  refine ⟨hidx, |q| - n * ⌊|q| / (n : ℚ)⌋, hidx, ?_, ?_⟩
  · have h1 : (n : ℚ) * ⌊|q| / (n : ℚ)⌋ ≤ n * (|q| / n) :=
      mul_le_mul_of_nonneg_left (Int.floor_le _) hn0.le
    rw [mul_div_cancel₀ _ hn0.ne'] at h1
    linarith
  · have h2 : |q| / (n : ℚ) < ⌊|q| / (n : ℚ)⌋ + 1 := Int.lt_floor_add_one _
    have h3 : |q| < n * (⌊|q| / (n : ℚ)⌋ + 1) := by
      calc |q| = n * (|q| / n) := (mul_div_cancel₀ _ hn0.ne').symm
      _ < n * (⌊|q| / (n : ℚ)⌋ + 1) := by
          exact mul_lt_mul_of_pos_left h2 hn0
    nlinarith [h3]

/-- Witness for C1 (amended): `clipIndex = -5` with three clips repairs
to index 2 (`abs(-5) mod 3`), which lies in `[0, 3)`. -/
theorem C1_repair_in_range_witness :
    (0 < 3) ∧
    validateEntry 3
        (.jobj [("clipIndex", .jnum (.fin (-5))), ("duration", .jnum (.fin 2)),
                ("description", .jstr "x")])
      = some ⟨.fin 2, .fin 2, "x"⟩ ∧
    jsInRange (JSNum.fin 2) 3 := by
  have hfloor : ⌊(5 : ℚ) / 3⌋ = 1 := by
    rw [Int.floor_eq_iff]
    norm_num
  have hval : validateEntry 3
      (.jobj [("clipIndex", .jnum (.fin (-5))), ("duration", .jnum (.fin 2)),
              ("description", .jstr "x")])
      = some ⟨.fin 2, .fin 2, "x"⟩ := by
    norm_num [validateEntry, getNumField, getStrField, lookupField, jsLeZero,
      jsMod, jsAbs, ratTrunc, hfloor, descKeyNeClipKey, durKeyNeClipKey,
      descKeyNeDurKey, (by norm_num : |(-5 : ℚ)| = 5)]
  refine ⟨by norm_num, hval, ?_⟩
  exact (C1_repair_in_range 3 (by norm_num) _ ⟨.fin 2, .fin 2, "x"⟩ (-5) hval
    (by norm_num [getNumField, lookupField, descKeyNeClipKey, durKeyNeClipKey])).2

/-- C2 counterexample: an entry whose `description` is the empty string
survives (the code only checks `typeof description === 'string'`, not
non-emptiness), so the returned list contains an `EditDecision` with an
empty description, contrary to the claimed invariant. -/
theorem C2_counterexample :
    createVideoSequenceValidate 1
        (.jarr [.jobj [("clipIndex", .jnum (.fin 0)), ("duration", .jnum (.fin 5)),
                       ("description", .jstr "")]])
      = .ok [⟨.fin 0, .fin 5, ""⟩] := by
  norm_num [createVideoSequenceValidate, wrapParsed, validateEntry, getNumField,
    getStrField, lookupField, jsLeZero, jsMod, jsAbs, ratTrunc,
    descKeyNeClipKey, durKeyNeClipKey, descKeyNeDurKey, Option.some_ne_none,
    List.filterMap_cons, List.filterMap_nil]

/-- C2 (amended): every `EditDecision` returned by the validator has a
duration for which the JavaScript comparison `duration <= 0` is false —
in particular every finite duration is strictly positive — and raw
entries failing the structural checks (non-numeric `clipIndex`,
non-numeric or non-positive `duration`, non-string `description`) are
discarded without raising an error; the description, however, may be
any string including the empty one. -/
theorem C2_duration_invariant (n : ℕ) (parsed : JVal)
    (out : List EditDecision)
    (h : createVideoSequenceValidate n parsed = .ok out) :
    (∀ d ∈ out, jsLeZero d.duration = false ∧
      ∀ q : ℚ, d.duration = .fin q → 0 < q) ∧
    (∀ item rest, discardedEntry item →
      createVideoSequenceValidate n (.jarr (item :: rest))
        = createVideoSequenceValidate n (.jarr rest)) := by
  constructor
  · intro d hd
    have hmem : ∃ item ∈ (match wrapParsed parsed with
        | none => [] | some items => items), validateEntry n item = some d := by
      unfold createVideoSequenceValidate at h
      cases hw : wrapParsed parsed with
      | none => rw [hw] at h; exact absurd h (by simp)
      | some items =>
        rw [hw] at h
        simp only at h
        split at h
        · exact absurd h (by simp)
        · injection h with h
          subst h
          simpa [hw] using List.mem_filterMap.mp hd
    obtain ⟨item, -, hv⟩ := hmem
    obtain ⟨ci, dur, desc, -, -, -, hle, hrec⟩ := validateEntry_eq_some hv
    subst hrec
    refine ⟨hle, fun q hq => ?_⟩
    simp only at hq
    subst hq
    simpa [jsLeZero] using hle
  · intro item rest hdisc
    simp [createVideoSequenceValidate, wrapParsed, List.filterMap_cons,
      discarded_validateEntry_none hdisc n]

/-- Witness for C2 (amended) at a concrete run returning one
decision. -/
theorem C2_duration_invariant_witness :
    (∀ d ∈ [(⟨.fin 0, .fin 5, "ok"⟩ : EditDecision)], jsLeZero d.duration = false ∧
      ∀ q : ℚ, d.duration = .fin q → 0 < q) ∧
    (∀ item rest, discardedEntry item →
      createVideoSequenceValidate 1 (.jarr (item :: rest))
        = createVideoSequenceValidate 1 (.jarr rest)) :=
  C2_duration_invariant 1
    (.jarr [.jobj [("clipIndex", .jnum (.fin 0)), ("duration", .jnum (.fin 5)),
                   ("description", .jstr "ok")]])
    [⟨.fin 0, .fin 5, "ok"⟩]
    (by norm_num [createVideoSequenceValidate, wrapParsed, validateEntry,
      getNumField, getStrField, lookupField, jsLeZero, jsMod, jsAbs, ratTrunc,
      descKeyNeClipKey, durKeyNeClipKey, descKeyNeDurKey, Option.some_ne_none,
    List.filterMap_cons, List.filterMap_nil])

/-- The merge loop never returns an empty list. -/
theorem mergeSegments_ne_nil (rest : List EnergySegment) (cur : EnergySegment) :
    mergeSegments cur rest ≠ [] := by
  induction rest generalizing cur with
  | nil => simp [mergeSegments]
  | cons next rest ih =>
    unfold mergeSegments
    split
    · exact ih _
    · simp

/-- The first merged segment keeps the start time and intensity of the
accumulator. -/
theorem mergeSegments_headI (rest : List EnergySegment) (cur : EnergySegment) :
    (mergeSegments cur rest).headI.startTime = cur.startTime ∧
    (mergeSegments cur rest).headI.intensity = cur.intensity := by
  induction rest generalizing cur with
  | nil => simp [mergeSegments]
  | cons next rest ih =>
    unfold mergeSegments
    split
    · exact ih _
    · simp

/-- Auxiliary: dropping the first element of a two-or-longer list does
not change the last end time. -/
theorem lastEnd_cons_cons (a b : EnergySegment) (l : List EnergySegment) :
    lastEnd (a :: b :: l) = lastEnd (b :: l) := by
  simp [lastEnd, List.getLastD_cons]

/-- The merge loop preserves the end time of the last segment. -/
theorem mergeSegments_lastEnd (rest : List EnergySegment) (cur : EnergySegment) :
    lastEnd (mergeSegments cur rest) = lastEnd (cur :: rest) := by
  induction rest generalizing cur with
  | nil => simp [mergeSegments]
  | cons next rest ih =>
    unfold mergeSegments
    split
    · rw [ih]
      cases rest with
      | nil => simp [lastEnd, List.getLastD_cons]
      | cons r t => rw [lastEnd_cons_cons, lastEnd_cons_cons, lastEnd_cons_cons]
    · rcases hm : mergeSegments next rest with - | ⟨m, ms⟩
      · exact absurd hm (mergeSegments_ne_nil _ _)
      · rw [lastEnd_cons_cons, ← hm, ih, lastEnd_cons_cons]

/-- The merge loop preserves contiguity: if each segment of the input
ends where the next starts, the same holds of the merged output. -/
theorem mergeSegments_chain (rest : List EnergySegment) (cur : EnergySegment)
    (h : List.Chain' (fun a b => a.endTime = b.startTime) (cur :: rest)) :
    List.Chain' (fun a b => a.endTime = b.startTime) (mergeSegments cur rest) := by
  induction rest generalizing cur with
  | nil => simp [mergeSegments]
  | cons next rest ih =>
    rw [List.chain'_cons] at h
    obtain ⟨hcn, hrest⟩ := h
    unfold mergeSegments
    split
    · apply ih
      cases rest with
      | nil => simp
      | cons r t =>
        rw [List.chain'_cons] at hrest ⊢
        exact ⟨hrest.1, hrest.2⟩
    · rw [List.chain'_cons']
      refine ⟨?_, ih _ hrest⟩
      intro b hb
      rcases hm : mergeSegments next rest with - | ⟨m, ms⟩
      · exact absurd hm (mergeSegments_ne_nil _ _)
      · rw [hm] at hb
        simp only [List.head?_cons, Option.mem_def, Option.some.injEq] at hb
        subst hb
        have := (mergeSegments_headI rest next).1
        rw [hm] at this
        simp only [List.headI_cons] at this
        rw [hcn, ← this]

/-- No two adjacent segments produced by the merge loop carry the same
intensity label. -/
theorem mergeSegments_intensity_chain (rest : List EnergySegment)
    (cur : EnergySegment) :
    List.Chain' (fun a b => a.intensity ≠ b.intensity) (mergeSegments cur rest) := by
  induction rest generalizing cur with
  | nil => simp [mergeSegments]
  | cons next rest ih =>
    unfold mergeSegments
    split
    · exact ih _
    · next hne =>
      rw [List.chain'_cons']
      refine ⟨?_, ih _⟩
      intro b hb
      rcases hm : mergeSegments next rest with - | ⟨m, ms⟩
      · exact absurd hm (mergeSegments_ne_nil _ _)
      · rw [hm] at hb
        simp only [List.head?_cons, Option.mem_def, Option.some.injEq] at hb
        subst hb
        have := (mergeSegments_headI rest next).2
        rw [hm] at this
        simp only [List.headI_cons] at this
        rw [this]
        exact fun hEq => hne hEq.symm

/-- If every following segment has the accumulator's intensity, the
merge loop collapses the whole list into a single segment spanning from
the accumulator's start to the last end time. -/
theorem mergeSegments_constant (rest : List EnergySegment) (cur : EnergySegment)
    (h : ∀ s ∈ rest, s.intensity = cur.intensity) :
    mergeSegments cur rest = [⟨cur.startTime, lastEnd (cur :: rest), cur.intensity⟩] := by
  induction rest generalizing cur with
  | nil =>
    simp only [mergeSegments, lastEnd, List.getLastD_cons, List.getLastD_nil]
  | cons next rest ih =>
    unfold mergeSegments
    rw [if_pos (h next (by simp))]
    rw [ih (⟨cur.startTime, next.endTime, cur.intensity⟩ : EnergySegment)
      (fun s hs => h s (by simp [hs]))]
    have hl : lastEnd ((⟨cur.startTime, next.endTime, cur.intensity⟩ :
        EnergySegment) :: rest) = lastEnd (cur :: next :: rest) := by
      cases rest with
      | nil => simp [lastEnd, List.getLastD_cons]
      | cons r t => rw [lastEnd_cons_cons, lastEnd_cons_cons, lastEnd_cons_cons]
    rw [hl]

/-- A degenerate (empty) buffer produces zero windows. -/
theorem numWindows_zero {sr : ℕ} (hsr : 0 < sr) : numWindows 0 sr = 0 := by
  unfold numWindows
  exact Nat.div_eq_of_lt (by omega)

/-- A non-empty buffer produces at least one window. -/
theorem numWindows_pos {len sr : ℕ} (hsr : 0 < sr) (hlen : 0 < len) :
    0 < numWindows len sr := by
  unfold numWindows
  have h : 1 ≤ (len + sr - 1) / sr := (Nat.one_le_div_iff hsr).mpr (by omega)
  omega

/-- The windows jointly cover the whole buffer. -/
theorem numWindows_mul_ge {len sr : ℕ} (hsr : 0 < sr) :
    len ≤ numWindows len sr * sr := by
  have h1 := Nat.div_add_mod (len + sr - 1) sr
  have h2 : (len + sr - 1) % sr < sr := Nat.mod_lt _ hsr
  have h3 : numWindows len sr * sr = sr * ((len + sr - 1) / sr) := by
    unfold numWindows
    exact Nat.mul_comm _ _
  omega

/-- Every window except possibly the last ends inside the buffer. -/
theorem mul_le_of_lt_numWindows {len sr k : ℕ} (hsr : 0 < sr)
    (h : k + 1 < numWindows len sr) : (k + 1) * sr ≤ len := by
  unfold numWindows at h
  have h2 : k + 2 ≤ (len + sr - 1) / sr := h
  rw [Nat.le_div_iff_mul_le hsr] at h2
  have h3 : (k + 2) * sr = (k + 1) * sr + sr := by ring
  omega

/-- The first window starts at time 0. -/
theorem segStart_zero (sr : ℕ) : segStart sr 0 = 0 := by
  simp [segStart]

/-- A non-final window ends exactly where the next one starts. -/
theorem segEnd_eq_segStart {len sr k : ℕ} (h : (k + 1) * sr ≤ len) :
    segEnd len sr k = segStart sr (k + 1) := by
  unfold segEnd segStart
  rw [Nat.min_eq_left h]

/-- The final window ends at the buffer duration `len / sr`. -/
theorem segEnd_last {len sr m : ℕ} (hsr : 0 < sr)
    (hn : numWindows len sr = m + 1) :
    segEnd len sr m = (len : ℚ) / sr := by
  unfold segEnd
  have h1 : len ≤ (m + 1) * sr := by
    have h : len ≤ numWindows len sr * sr := numWindows_mul_ge hsr
    rw [hn] at h
    exact h
  rw [Nat.min_eq_right h1]

/-- The classified segment list has one entry per window. -/
theorem classifiedSegments_length (samples : List ℚ) (sr : ℕ) :
    (classifiedSegments samples sr).length = numWindows samples.length sr := by
  simp [classifiedSegments]

/-- The classified segment list is contiguous: each window ends where
the next one starts. -/
theorem classifiedSegments_chain (samples : List ℚ) (sr : ℕ) (hsr : 0 < sr) :
    List.Chain' (fun a b => a.endTime = b.startTime)
      (classifiedSegments samples sr) := by
  rw [List.chain'_iff_get]
  intro i hi
  rw [classifiedSegments_length] at hi
  simp only [classifiedSegments, List.get_eq_getElem, List.getElem_map,
    List.getElem_range]
  exact segEnd_eq_segStart (mul_le_of_lt_numWindows hsr (by omega))

/-- Head decomposition of the classified segment list. -/
theorem classifiedSegments_eq_cons (samples : List ℚ) (sr : ℕ) {m : ℕ}
    (hn : numWindows samples.length sr = m + 1) :
    ∃ rest, classifiedSegments samples sr =
      (⟨segStart sr 0, segEnd samples.length sr 0,
        classify ((energyLevels samples sr).getD 0 0) (lowThreshold samples sr)
          (highThreshold samples sr)⟩ : EnergySegment) :: rest := by
  unfold classifiedSegments
  rw [hn, List.range_succ_eq_map, List.map_cons]
  exact ⟨_, rfl⟩

/-- The last classified segment ends at the final window's end time. -/
theorem classifiedSegments_lastEnd (samples : List ℚ) (sr : ℕ) {m : ℕ}
    (hn : numWindows samples.length sr = m + 1) :
    lastEnd (classifiedSegments samples sr) = segEnd samples.length sr m := by
  unfold classifiedSegments
  rw [hn, List.range_succ, List.map_append, List.map_singleton]
  simp [lastEnd, List.getLastD_concat]

/-- C5: for every sample rate, `analyzeEnergy` on an empty buffer
returns the empty segment list, and on a non-empty buffer returns a
non-empty list whose segments partition `[0, duration]` exactly: the
first segment starts at 0, each segment ends where the next starts, and
the last segment ends at the audio duration `length / sampleRate`. -/
theorem C5_energy_partition (samples : List ℚ) (sr : ℕ) (hsr : 0 < sr) :
    (samples = [] → analyzeEnergy samples sr = []) ∧
    (samples ≠ [] →
      analyzeEnergy samples sr ≠ [] ∧
      (analyzeEnergy samples sr).headI.startTime = 0 ∧
      lastEnd (analyzeEnergy samples sr) = audioDuration samples sr ∧
      List.Chain' (fun a b => a.endTime = b.startTime)
        (analyzeEnergy samples sr)) := by
  constructor
  · intro hnil
    subst hnil
    simp [analyzeEnergy, classifiedSegments, numWindows_zero hsr]
  · intro hne
    have hlen : 0 < samples.length := List.length_pos.mpr hne
    obtain ⟨m, hn⟩ := Nat.exists_eq_succ_of_ne_zero
      (Nat.pos_iff_ne_zero.mp (numWindows_pos hsr hlen))
    obtain ⟨rest, hcs⟩ := classifiedSegments_eq_cons samples sr hn
    have hAE : analyzeEnergy samples sr = mergeSegments
        (⟨segStart sr 0, segEnd samples.length sr 0,
          classify ((energyLevels samples sr).getD 0 0) (lowThreshold samples sr)
            (highThreshold samples sr)⟩ : EnergySegment) rest := by
      unfold analyzeEnergy
      rw [hcs]
    refine ⟨?_, ?_, ?_, ?_⟩
    · rw [hAE]
      exact mergeSegments_ne_nil _ _
    · rw [hAE, (mergeSegments_headI _ _).1]
      exact segStart_zero sr
    · rw [hAE, mergeSegments_lastEnd, ← hcs, classifiedSegments_lastEnd samples sr hn,
        segEnd_last hsr hn]
      rfl
    · rw [hAE]
      apply mergeSegments_chain
      rw [← hcs]
      exact classifiedSegments_chain samples sr hsr

/-- Witness for C5 at a concrete three-sample buffer with sample rate
2. -/
theorem C5_energy_partition_witness :
    (([(0 : ℚ), 0, 0] = []) → analyzeEnergy [(0 : ℚ), 0, 0] 2 = []) ∧
    (([(0 : ℚ), 0, 0] ≠ []) →
      analyzeEnergy [(0 : ℚ), 0, 0] 2 ≠ [] ∧
      (analyzeEnergy [(0 : ℚ), 0, 0] 2).headI.startTime = 0 ∧
      lastEnd (analyzeEnergy [(0 : ℚ), 0, 0] 2) = audioDuration [(0 : ℚ), 0, 0] 2 ∧
      List.Chain' (fun a b => a.endTime = b.startTime)
        (analyzeEnergy [(0 : ℚ), 0, 0] 2)) :=
  C5_energy_partition [(0 : ℚ), 0, 0] 2 (by norm_num)

/-- C7: for every audio input, no two adjacent segments returned by
`analyzeEnergy` carry the same intensity label — consecutive windows of
equal classification are always merged. -/
theorem C7_no_adjacent_equal_intensity (samples : List ℚ) (sr : ℕ) :
    List.Chain' (fun a b => a.intensity ≠ b.intensity)
      (analyzeEnergy samples sr) := by
  unfold analyzeEnergy
  cases classifiedSegments samples sr with
  | nil => simp
  | cons c rest => exact mergeSegments_intensity_chain rest c

/-- The energy list has one entry per window. -/
theorem energyLevels_length (samples : List ℚ) (sr : ℕ) :
    (energyLevels samples sr).length = numWindows samples.length sr := by
  simp [energyLevels]

/-- C10: because classification compares with `>=` against both
percentile thresholds, a non-empty buffer whose 1-second windows all
have the same RMS (for example pure silence) classifies every window
"high" — the thresholds coincide with the common value — and
`analyzeEnergy` returns a single segment spanning `[0, duration]` with
intensity "high", never "low". -/
theorem C10_uniform_rms_single_high (samples : List ℚ) (sr : ℕ) (hsr : 0 < sr)
    (hne : samples ≠ [])
    (huni : ∀ e ∈ energyLevels samples sr, e = (energyLevels samples sr).headI) :
    analyzeEnergy samples sr = [⟨0, audioDuration samples sr, "high"⟩] := by
  have hlen : 0 < samples.length := List.length_pos.mpr hne
  obtain ⟨m, hn⟩ := Nat.exists_eq_succ_of_ne_zero
    (Nat.pos_iff_ne_zero.mp (numWindows_pos hsr hlen))
  have hsortmem : ∀ e ∈ sortedEnergy samples sr,
      e = (energyLevels samples sr).headI := fun e he =>
    huni e ((List.perm_insertionSort (· ≤ ·) (energyLevels samples sr)).mem_iff.mp he)
  have hslen : (sortedEnergy samples sr).length = m + 1 := by
    rw [sortedEnergy, (List.perm_insertionSort _ _).length_eq,
      energyLevels_length, hn]
  have hlow : lowThreshold samples sr = (energyLevels samples sr).headI := by
    unfold lowThreshold
    rw [List.getD_eq_getElem _ _ (by rw [hslen]; omega)]
    exact hsortmem _ (List.getElem_mem _)
  have hhigh : highThreshold samples sr = (energyLevels samples sr).headI := by
    unfold highThreshold
    rw [List.getD_eq_getElem _ _ (by rw [hslen]; omega)]
    exact hsortmem _ (List.getElem_mem _)
  have hclass : classifiedSegments samples sr =
      (List.range (m + 1)).map (fun k =>
        (⟨segStart sr k, segEnd samples.length sr k, "high"⟩ : EnergySegment)) := by
    unfold classifiedSegments
    rw [hn]
    apply List.map_congr_left
    intro k hk
    have hkn : k < m + 1 := List.mem_range.mp hk
    have hek : (energyLevels samples sr).getD k 0
        = (energyLevels samples sr).headI := by
      rw [List.getD_eq_getElem _ _ (by rw [energyLevels_length, hn]; omega)]
      exact huni _ (List.getElem_mem _)
    rw [hek, hlow, hhigh]
    simp [classify]
  have hcons : classifiedSegments samples sr =
      (⟨segStart sr 0, segEnd samples.length sr 0, "high"⟩ : EnergySegment) ::
        (List.range m).map (fun k =>
          (⟨segStart sr (k + 1), segEnd samples.length sr (k + 1), "high"⟩ :
            EnergySegment)) := by
    rw [hclass, List.range_succ_eq_map, List.map_cons, List.map_map]
    rfl
  have hAE : analyzeEnergy samples sr = mergeSegments
      (⟨segStart sr 0, segEnd samples.length sr 0, "high"⟩ : EnergySegment)
      ((List.range m).map (fun k =>
        (⟨segStart sr (k + 1), segEnd samples.length sr (k + 1), "high"⟩ :
          EnergySegment))) := by
    unfold analyzeEnergy
    rw [hcons]
  have hall : ∀ s ∈ (List.range m).map (fun k =>
      (⟨segStart sr (k + 1), segEnd samples.length sr (k + 1), "high"⟩ :
        EnergySegment)), s.intensity = "high" := by
    intro s hs
    obtain ⟨k, -, rfl⟩ := List.mem_map.mp hs
    rfl
  rw [hAE, mergeSegments_constant _ _ (fun s hs => hall s hs)]
  have hle : lastEnd
      ((⟨segStart sr 0, segEnd samples.length sr 0, "high"⟩ : EnergySegment) ::
        (List.range m).map (fun k =>
          (⟨segStart sr (k + 1), segEnd samples.length sr (k + 1), "high"⟩ :
            EnergySegment))) = audioDuration samples sr := by
    rw [← hcons, classifiedSegments_lastEnd samples sr hn, segEnd_last hsr hn]
    rfl
  rw [hle]
  rw [show (⟨segStart sr 0, segEnd samples.length sr 0, "high"⟩ :
    EnergySegment).startTime = segStart sr 0 from rfl, segStart_zero]

/-- Witness for C10 at a concrete silent buffer (three zero samples,
sample rate 2): both windows have RMS 0, so the result is one "high"
segment spanning the whole track. -/
theorem C10_uniform_rms_single_high_witness :
    analyzeEnergy [(0 : ℚ), 0, 0] 2 = [⟨0, audioDuration [(0 : ℚ), 0, 0] 2, "high"⟩] := by
  have hEL : energyLevels [(0 : ℚ), 0, 0] 2 = [0, 0] := by
    unfold energyLevels
    rw [show ([(0 : ℚ), 0, 0].length) = 3 from rfl,
      show numWindows 3 2 = 2 from rfl, show List.range 2 = [0, 1] from rfl]
    simp only [List.map_cons, List.map_nil]
    rw [show window [(0 : ℚ), 0, 0] 2 0 = [0, 0] from rfl,
      show window [(0 : ℚ), 0, 0] 2 1 = [0] from rfl]
    norm_num [meanSquare]
  exact C10_uniform_rms_single_high [(0 : ℚ), 0, 0] 2 (by norm_num) (by simp)
    (by rw [hEL]; intro e he; simp only [List.mem_cons, List.not_mem_nil,
      or_false] at he; rcases he with rfl | rfl <;> rfl)
